import Mathlib

/-!
Verification of the `protein_compare` similarity-scoring and motif-scanning
core against its natural-language specification.

The Python module is shallowly embedded below.  Python floats are modelled
as exact rationals (every constant occurring in the scoring tables is an
exact decimal, so the ideal arithmetic of the program is rational), Python
strings as `String`, generators as the finite lists they yield, and the
pandas sequence table as a lookup function `String → String → String` from
protein name and loop name to the peptide stored there.
-/

namespace ProteinCompare

/-- Embeds `fragmentate_dictionary`: splits entries like `("FW", 0)` into
`('F', 0)` and `('W', 0)`. -/
def fragmentate_dictionary (old_dictionary : List (String × ℚ)) : List (Char × ℚ) :=
  old_dictionary.flatMap (fun kv => kv.1.toList.map (fun c => (c, kv.2)))

/-- The `HYDRO_SCORES` table of the source. -/
def HYDRO_SCORES : List (Char × ℚ) :=
  fragmentate_dictionary [("FW", 0), ("ILMY", 0.75), ("V", 1.5), ("AP", 2.25), ("XG", 3),
                          ("STC", 4), ("NQH", 5), ("DERK", 6)]

def MAX_HYDRO : ℚ := 6

def HYDRO_WEIGHT : ℚ := 1.0

/-- The `SIZE_SCORES` table of the source. -/
def SIZE_SCORES : List (Char × ℚ) :=
  fragmentate_dictionary [("GASC", 0), ("VTPDN", 1), ("X", 1.5), ("EQILMHFK", 2), ("WYR", 3)]

def MAX_SIZE : ℚ := 3

def SIZE_WEIGHT : ℚ := 1.2

/-- The `MISC_SCORES` tuple of category groups, in source order
("YF" deliberately before "HYWF"). -/
def MISC_SCORES : List (String × ℚ) :=
  [("RHK", 1), ("DE", 1), ("ND", 1.5), ("QE", 1.5), ("TVLI", 1), ("YF", 1.5), ("HYWF", 1)]

def MISC_WEIGHT : ℚ := 1.8

/-- First-match lookup in a fragmentated score dictionary.  The Python dict
raises `KeyError` outside its key set; the model returns 0 there, and every
theorem about scores quantifies only over the valid alphabet, where the two
agree.  (The tables have pairwise distinct keys, so first-match equals dict
lookup.) -/
def dict_lookup : List (Char × ℚ) → Char → ℚ
  | [], _ => 0
  | (k, v) :: rest, c => if c = k then v else dict_lookup rest c

def hydro_lookup (c : Char) : ℚ := dict_lookup HYDRO_SCORES c

def size_lookup (c : Char) : ℚ := dict_lookup SIZE_SCORES c

/-- The `else` branch of the `misc` computation in `compare_amino_acids`:
scan the ordered category groups and take the first whose group contains
both letters, defaulting to 0. -/
def misc_fallback : List (String × ℚ) → Char → Char → ℚ
  | [], _, _ => 0
  | (category, value) :: rest, a, b =>
    if a ∈ category.toList ∧ b ∈ category.toList then value else misc_fallback rest a b

/-- The `misc` sub-score of `compare_amino_acids` (letters already upper
case): the chained comparison `aa_1 == aa_2 != "X"` selects the identity
bonus (3 for G/P/C, else 2); otherwise the ordered category scan runs. -/
def misc_score (a b : Char) : ℚ :=
  if a = b ∧ b ≠ 'X' then (if a ∈ "GPC".toList then 3 else 2)
  else misc_fallback MISC_SCORES a b

/-- Body of `compare_amino_acids` after the upper-casing line. -/
def aa_score (a b : Char) : ℚ :=
  misc_score a b * MISC_WEIGHT
    + (MAX_HYDRO - |hydro_lookup a - hydro_lookup b|) * HYDRO_WEIGHT
    + (MAX_SIZE - |size_lookup a - size_lookup b|) * SIZE_WEIGHT

/-- Embeds `compare_amino_acids`: upper-case both letters, then combine the
three weighted sub-scores. -/
def compare_amino_acids (aa_1 aa_2 : Char) : ℚ :=
  aa_score aa_1.toUpper aa_2.toUpper

/-- Embeds the generator `iterate_peptide` as the list of letters it
yields: walking the peptide with an index counter, an `X` is emitted just
before the letter whose index equals `shift_index` (here: just before the
letter reached when the remaining shift count hits 0); once the insertion
happened, or if the index never reaches `shift_index`, letters pass through
unchanged. -/
def iterate_peptide : List Char → ℕ → List Char
  | [], _ => []
  | c :: rest, 0 => 'X' :: c :: rest
  | c :: rest, n + 1 => c :: iterate_peptide rest n

/-- Embeds `compare_peptides`: the operand selected by `shift_peptide`
(`"first"` / `"second"`) is iterated through `iterate_peptide`, the other
plainly; `zip` truncates to the shorter side, and the amino-acid scores of
the pairs are summed.  In the source `shift_index` is the empty string in
the no-shift call; it is only ever read when `shift_peptide` names a side,
so the model takes a natural number that is ignored otherwise. -/
def compare_peptides (peptide_1 peptide_2 : String) (shift_peptide : String)
    (shift_index : ℕ) : ℚ :=
  let peptide_1_iter := if shift_peptide = "first" then iterate_peptide peptide_1.toList shift_index
                        else peptide_1.toList
  let peptide_2_iter := if shift_peptide = "second" then iterate_peptide peptide_2.toList shift_index
                        else peptide_2.toList
  ((peptide_1_iter.zip peptide_2_iter).map (fun aa_pair => compare_amino_acids aa_pair.1 aa_pair.2)).sum

/-- Round half to even on rationals (the default rounding of Python's
`decimal` context, used by `Decimal.quantize` in `round_floats`). -/
def round_half_even (x : ℚ) : ℤ :=
  let f := ⌊x⌋
  if x - f < 1 / 2 then f
  else if 1 / 2 < x - f then f + 1
  else if f % 2 = 0 then f else f + 1

/-- Embeds `round_floats`: quantize to two decimal places.  The source
quantizes a `Decimal` with the context default `ROUND_HALF_EVEN`. -/
def round_floats (number : ℚ) : ℚ := (round_half_even (number * 100) : ℚ) / 100

/-- Modelled from the spec: the "half-up" rounding named in §6 of the
specification (the source itself uses the decimal default, half-even);
kept to compare the spec's wording against the code's outputs. -/
def round_half_up (x : ℚ) : ℤ := ⌊x + 1 / 2⌋

/-- Modelled from the spec: two-decimal-place rounding with half-up ties,
as the specification's §6 describes the exported precision. -/
def round_two_decimals_half_up (number : ℚ) : ℚ := (round_half_up (number * 100) : ℚ) / 100

/-- One iteration of the inner loop of `compare_proteins`: either peptide
shorter than 4 letters doubles the running score (`score += score`);
otherwise the peptide comparison for this loop is added, with the shift
dispatched only when the loop is a member of the shift specification's
first field. -/
def loop_update (prot_seq : String → String → String) (prot_of_interest prot : String)
    (shift : List String × String × ℕ) (score : ℚ) (loop : String) : ℚ :=
  let peptide_1 := prot_seq prot_of_interest loop
  let peptide_2 := prot_seq prot loop
  if peptide_1.length < 4 ∨ peptide_2.length < 4 then score + score
  else
    let shift_peptide := if loop ∈ shift.1 then shift.2.1 else ""
    let shift_index := if loop ∈ shift.1 then shift.2.2 else 0
    score + compare_peptides peptide_1 peptide_2 shift_peptide shift_index

/-- The raw (un-rounded) accumulated score of one protein-of-interest /
candidate pair in `compare_proteins`: the requested loops folded from 0. -/
def compare_protein_score (loops : List String) (prot_seq : String → String → String)
    (prot_of_interest prot : String) (shift : List String × String × ℕ) : ℚ :=
  loops.foldl (loop_update prot_seq prot_of_interest prot shift) 0

/-- Embeds the generator `compare_proteins`: one rounded score per protein
of the collection, in collection order. -/
def compare_proteins (loops : List String) (prot_seq : String → String → String)
    (index : List String) (prot_of_interest : String)
    (shift : List String × String × ℕ) : List ℚ :=
  index.map (fun prot => round_floats (compare_protein_score loops prot_seq prot_of_interest prot shift))

/-- One position of a motif pattern: the regex `.` wildcard or a character
class `[...]` (a literal letter is the singleton class). -/
inductive MPat where
  | any : MPat
  | cls : String → MPat
deriving DecidableEq

/-- One pattern position against one peptide letter, case-insensitively
(all catalogue classes are upper case, mirroring `re.IGNORECASE`). -/
def mpat_matches (p : MPat) (c : Char) : Bool :=
  match p with
  | .any => true
  | .cls s => decide (c.toUpper ∈ s.toList)

/-- A whole fixed-length pattern against a prefix of the letter list. -/
def matches_at : List MPat → List Char → Bool
  | [], _ => true
  | _ :: _, [] => false
  | p :: ps, c :: cs => mpat_matches p c && matches_at ps cs

/-- Embeds `re.search(pattern, peptide, IGNORECASE)` for the fixed-length
class patterns of the catalogue: the pattern matches starting at any
position of the peptide. -/
def regex_search (pat : List MPat) (peptide : String) : Bool :=
  peptide.toList.tails.any (matches_at pat)

/-- `[STN]..[EQ]` -/
def box_ncap_pat : List MPat := [.cls "STN", .any, .any, .cls "EQ"]

/-- `[MLIFV][STN]..[EQ][MFIFV]` -/
def box_hydrophobic_pat : List MPat :=
  [.cls "MLIFV", .cls "STN", .any, .any, .cls "EQ", .cls "MFIFV"]

/-- `[STN]P.[EQ]` -/
def box_proline_pat : List MPat := [.cls "STN", .cls "P", .any, .cls "EQ"]

/-- `[STN]...[EQ]` -/
def big_box_ncap_pat : List MPat := [.cls "STN", .any, .any, .any, .cls "EQ"]

/-- `[MLIFV][STN]...[EQ][MFIFV]` -/
def big_box_hydrophobic_pat : List MPat :=
  [.cls "MLIFV", .cls "STN", .any, .any, .any, .cls "EQ", .cls "MFIFV"]

/-- `[STN]P..[EQ]` -/
def big_box_proline_pat : List MPat := [.cls "STN", .cls "P", .any, .any, .cls "EQ"]

/-- `[RK]...[E]` -/
def salt_bridge_4_fwd_pat : List MPat := [.cls "RK", .any, .any, .any, .cls "E"]

/-- `[E]...[RK]` -/
def salt_bridge_4_rev_pat : List MPat := [.cls "E", .any, .any, .any, .cls "RK"]

/-- `[RK]..[E]` -/
def salt_bridge_3_fwd_pat : List MPat := [.cls "RK", .any, .any, .cls "E"]

/-- `[E]..[R]` (the source really has only `R` on this direction) -/
def salt_bridge_3_rev_pat : List MPat := [.cls "E", .any, .any, .cls "R"]

/-- `[IVKMLYFWA]...G[GSTNEDQ][IVKMLYFWA]` -/
def alphal_ccap_pat : List MPat :=
  [.cls "IVKMLYFWA", .any, .any, .any, .cls "G", .cls "GSTNEDQ", .cls "IVKMLYFWA"]

/-- `[IVKMLYFWA]...G[IVKMLYFWA]` -/
def shellman_ccap_pat : List MPat :=
  [.cls "IVKMLYFWA", .any, .any, .any, .cls "G", .cls "IVKMLYFWA"]

/-- `[LAM]..[HKL]G[IVK]` -/
def narrow_shellman_pat : List MPat :=
  [.cls "LAM", .any, .any, .cls "HKL", .cls "G", .cls "IVK"]

/-- The `stringency` lambda of `find_structural_motifs`. -/
def stringency (peptide : String) : String :=
  if regex_search narrow_shellman_pat peptide then "Narrow" else "Broad"

/-- `"".join(scan(variant_dictionary))`: the concatenated suffixes of the
variant entries whose pattern matches, in dictionary order. -/
def scan_variants (variants : List (List MPat × String)) (peptide : String) : String :=
  String.join (((variants.filter (fun v => regex_search v.1 peptide)).map Prod.snd))

/-- The `box_ncap_variants` dictionary. -/
def box_ncap_variants : List (List MPat × String) :=
  [(box_hydrophobic_pat, " with hydrophobic interactions"),
   (box_proline_pat, " with a proline")]

/-- The `big_box_ncap_variants` dictionary. -/
def big_box_ncap_variants : List (List MPat × String) :=
  [(big_box_hydrophobic_pat, " with hydrophobic interactions"),
   (big_box_proline_pat, " with a proline")]

/-- The `structural_motifs` dictionary of `find_structural_motifs`, in
insertion order; its two N-cap labels and the Shellman stringency prefix
are computed (as in the source) from sub-scans of the same peptide. -/
def structural_motifs (peptide : String) : List (List MPat × String) :=
  [(box_ncap_pat, "Box N-cap" ++ scan_variants box_ncap_variants peptide),
   (big_box_ncap_pat, "Big Box N-cap" ++ scan_variants big_box_ncap_variants peptide),
   (salt_bridge_4_fwd_pat, "i-->i+4 Salt bridge"),
   (salt_bridge_4_rev_pat, "i-->i+4 Salt bridge"),
   (salt_bridge_3_fwd_pat, "i-->i+3 Salt bridge"),
   (salt_bridge_3_rev_pat, "i-->i+3 Salt bridge"),
   (alphal_ccap_pat, "AlphaL C-cap"),
   (shellman_ccap_pat, stringency peptide ++ " Shellman C-cap")]

/-- `len(findall("[TVI]", peptide, IGNORECASE))`. -/
def beta_branched_count (peptide : String) : ℕ :=
  (peptide.toList.filter (fun c => decide (c.toUpper ∈ "TVI".toList))).length

/-- Embeds `find_structural_motifs`: the labels of the catalogue entries
whose pattern matches, in catalogue order, then the multiplicity entry
when the peptide holds more than one T/V/I letter. -/
def find_structural_motifs (peptide : String) : List String :=
  let found_motifs :=
    ((structural_motifs peptide).filter (fun e => regex_search e.1 peptide)).map Prod.snd
  if 1 < beta_branched_count peptide then found_motifs ++ ["Multiple beta-branched residues"]
  else found_motifs

/-- The valid alphabet: the 20 canonical amino-acid letters plus the
synthetic `X`. -/
def valid_amino_acids : List Char := "ACDEFGHIKLMNPQRSTVWYX".toList

/-- A peptide whose letters all lie (case-insensitively) in the valid
alphabet. -/
def valid_peptide (p : String) : Prop := ∀ c ∈ p.toList, c.toUpper ∈ valid_amino_acids

/-! ### Helper lemmas -/

theorem iterate_peptide_eq (p : List Char) (i : ℕ) :
    iterate_peptide p i = p.take i ++ (if i < p.length then ['X'] else []) ++ p.drop i := by
  induction p generalizing i with
  | nil => simp [iterate_peptide]
  | cons c rest ih =>
    cases i with
    | zero => simp [iterate_peptide]
    | succ n => simp [iterate_peptide, ih n, Nat.succ_lt_succ_iff]

theorem iterate_peptide_length (p : List Char) (i : ℕ) :
    (iterate_peptide p i).length = if i < p.length then p.length + 1 else p.length := by
  rw [iterate_peptide_eq]
  rcases Nat.lt_or_ge i p.length with h | h
  · simp [h, Nat.min_eq_left (Nat.le_of_lt h)]
    all_goals omega
  · simp [Nat.not_lt.mpr h, Nat.min_eq_right h]
    all_goals omega

theorem dict_lookup_prop {P : ℚ → Prop} (h0 : P 0) (l : List (Char × ℚ))
    (h : ∀ kv ∈ l, P kv.2) (c : Char) : P (dict_lookup l c) := by
  induction l with
  | nil => simpa [dict_lookup] using h0
  | cons kv rest ih =>
    obtain ⟨k, v⟩ := kv
    by_cases hc : c = k
    · simpa [dict_lookup, hc] using h (k, v) (by simp)
    · simpa [dict_lookup, hc] using ih (fun kv hkv => h kv (by simp [hkv]))

theorem hydro_lookup_prop (c : Char) :
    (∃ z : ℤ, hydro_lookup c * 4 = (z:ℚ)) ∧ 0 ≤ hydro_lookup c ∧ hydro_lookup c ≤ 6 := by
  unfold hydro_lookup
  refine dict_lookup_prop (P := fun q => (∃ z : ℤ, q * 4 = (z:ℚ)) ∧ 0 ≤ q ∧ q ≤ 6)
    ⟨⟨0, by norm_num⟩, by norm_num, by norm_num⟩ _ ?_ c
  intro kv hkv
  fin_cases hkv <;> first
    | (refine ⟨⟨0, ?_⟩, ?_, ?_⟩ <;> norm_num <;> done)
    | (refine ⟨⟨3, ?_⟩, ?_, ?_⟩ <;> norm_num <;> done)
    | (refine ⟨⟨6, ?_⟩, ?_, ?_⟩ <;> norm_num <;> done)
    | (refine ⟨⟨9, ?_⟩, ?_, ?_⟩ <;> norm_num <;> done)
    | (refine ⟨⟨12, ?_⟩, ?_, ?_⟩ <;> norm_num <;> done)
    | (refine ⟨⟨16, ?_⟩, ?_, ?_⟩ <;> norm_num <;> done)
    | (refine ⟨⟨20, ?_⟩, ?_, ?_⟩ <;> norm_num <;> done)
    | (refine ⟨⟨24, ?_⟩, ?_, ?_⟩ <;> norm_num <;> done)

theorem size_lookup_prop (c : Char) :
    (∃ z : ℤ, size_lookup c * 2 = (z:ℚ)) ∧ 0 ≤ size_lookup c ∧ size_lookup c ≤ 3 := by
  unfold size_lookup
  refine dict_lookup_prop (P := fun q => (∃ z : ℤ, q * 2 = (z:ℚ)) ∧ 0 ≤ q ∧ q ≤ 3)
    ⟨⟨0, by norm_num⟩, by norm_num, by norm_num⟩ _ ?_ c
  intro kv hkv
  fin_cases hkv <;> first
    | (refine ⟨⟨0, ?_⟩, ?_, ?_⟩ <;> norm_num <;> done)
    | (refine ⟨⟨2, ?_⟩, ?_, ?_⟩ <;> norm_num <;> done)
    | (refine ⟨⟨3, ?_⟩, ?_, ?_⟩ <;> norm_num <;> done)
    | (refine ⟨⟨4, ?_⟩, ?_, ?_⟩ <;> norm_num <;> done)
    | (refine ⟨⟨6, ?_⟩, ?_, ?_⟩ <;> norm_num <;> done)

theorem misc_fallback_prop (l : List (String × ℚ))
    (h : ∀ e ∈ l, (∃ z : ℤ, e.2 * 2 = (z:ℚ)) ∧ 0 ≤ e.2 ∧ e.2 ≤ 3) (a b : Char) :
    (∃ z : ℤ, misc_fallback l a b * 2 = (z:ℚ)) ∧
      0 ≤ misc_fallback l a b ∧ misc_fallback l a b ≤ 3 := by
  induction l with
  | nil => exact ⟨⟨0, by norm_num [misc_fallback]⟩,
      by norm_num [misc_fallback], by norm_num [misc_fallback]⟩
  | cons e rest ih =>
    obtain ⟨cat, v⟩ := e
    simp only [misc_fallback]
    by_cases hm : a ∈ cat.toList ∧ b ∈ cat.toList
    · rw [if_pos hm]
      exact h (cat, v) (by simp)
    · rw [if_neg hm]
      exact ih (fun e he => h e (by simp [he]))

theorem misc_score_prop (a b : Char) :
    (∃ z : ℤ, misc_score a b * 2 = (z:ℚ)) ∧ 0 ≤ misc_score a b ∧ misc_score a b ≤ 3 := by
  simp only [misc_score]
  by_cases hid : a = b ∧ b ≠ 'X'
  · rw [if_pos hid]
    by_cases hg : a ∈ "GPC".toList
    · rw [if_pos hg]
      exact ⟨⟨6, by norm_num⟩, by norm_num, by norm_num⟩
    · rw [if_neg hg]
      exact ⟨⟨4, by norm_num⟩, by norm_num, by norm_num⟩
  · rw [if_neg hid]
    refine misc_fallback_prop MISC_SCORES ?_ a b
    intro e he
    fin_cases he <;> first
      | (refine ⟨⟨2, ?_⟩, ?_, ?_⟩ <;> norm_num <;> done)
      | (refine ⟨⟨3, ?_⟩, ?_, ?_⟩ <;> norm_num <;> done)

theorem closeness_term_prop {x y maxv : ℚ} {n : ℤ} (hn : (0:ℚ) < (n:ℚ))
    (hx : ∃ z : ℤ, x * n = (z:ℚ)) (hy : ∃ z : ℤ, y * n = (z:ℚ))
    (hmax : ∃ z : ℤ, maxv * n = (z:ℚ))
    (hx0 : 0 ≤ x) (hxm : x ≤ maxv) (hy0 : 0 ≤ y) (hym : y ≤ maxv) :
    (∃ z : ℤ, (maxv - |x - y|) * n = (z:ℚ)) ∧
      0 ≤ maxv - |x - y| ∧ maxv - |x - y| ≤ maxv := by
  obtain ⟨zx, hzx⟩ := hx
  obtain ⟨zy, hzy⟩ := hy
  obtain ⟨zm, hzm⟩ := hmax
  have habs : |x - y| * n = ((|zx - zy| : ℤ) : ℚ) := by
    have hdiff : (x - y) * n = ((zx - zy : ℤ) : ℚ) := by push_cast; linarith
    calc |x - y| * (n:ℚ) = |(x - y) * n| := by
          rw [abs_mul, abs_of_nonneg (le_of_lt hn)]
      _ = |((zx - zy : ℤ) : ℚ)| := by rw [hdiff]
      _ = ((|zx - zy| : ℤ) : ℚ) := by push_cast; ring
  have habs_le : |x - y| ≤ maxv := abs_le.mpr ⟨by linarith, by linarith⟩
  have habs_nonneg : 0 ≤ |x - y| := abs_nonneg _
  refine ⟨⟨zm - |zx - zy|, ?_⟩, by linarith, by linarith⟩
  push_cast
  push_cast at habs
  linarith [habs, hzm]

theorem aa_score_prop (a b : Char) :
    (∃ z : ℤ, aa_score a b * 20 = (z:ℚ)) ∧ 0 ≤ aa_score a b ∧ aa_score a b ≤ 15 := by
  obtain ⟨⟨zm, hzm⟩, hm0, hm3⟩ := misc_score_prop a b
  obtain ⟨hha, hha0, hha6⟩ := hydro_lookup_prop a
  obtain ⟨hhb, hhb0, hhb6⟩ := hydro_lookup_prop b
  obtain ⟨hsa, hsa0, hsa3⟩ := size_lookup_prop a
  obtain ⟨hsb, hsb0, hsb3⟩ := size_lookup_prop b
  obtain ⟨⟨zh, hzh⟩, hh0, hh6⟩ :=
    closeness_term_prop (n := 4) (by norm_num) hha hhb ⟨24, by norm_num⟩ hha0 hha6 hhb0 hhb6
  obtain ⟨⟨zs, hzs⟩, hs0, hs3⟩ :=
    closeness_term_prop (n := 2) (by norm_num) hsa hsb ⟨6, by norm_num⟩ hsa0 hsa3 hsb0 hsb3
  unfold aa_score MISC_WEIGHT HYDRO_WEIGHT SIZE_WEIGHT MAX_HYDRO MAX_SIZE
  refine ⟨⟨18 * zm + 5 * zh + 12 * zs, ?_⟩, ?_, ?_⟩
  · push_cast
    push_cast at hzm hzh hzs
    nlinarith [hzm, hzh, hzs]
  · nlinarith [hm0, hh0, hs0]
  · nlinarith [hm3, hh6, hs3]

theorem compare_amino_acids_prop (a b : Char) :
    (∃ z : ℤ, compare_amino_acids a b * 20 = (z:ℚ)) ∧
      0 ≤ compare_amino_acids a b ∧ compare_amino_acids a b ≤ 15 :=
  aa_score_prop a.toUpper b.toUpper

theorem sum_scaled_20 (L : List ℚ) (h : ∀ x ∈ L, ∃ z : ℤ, x * 20 = (z:ℚ)) :
    ∃ z : ℤ, L.sum * 20 = (z:ℚ) := by
  induction L with
  | nil => exact ⟨0, by norm_num⟩
  | cons x t ih =>
    obtain ⟨zx, hx⟩ := h x (by simp)
    obtain ⟨zt, ht⟩ := ih (fun y hy => h y (by simp [hy]))
    refine ⟨zx + zt, ?_⟩
    push_cast
    simp only [List.sum_cons]
    linarith

theorem compare_peptides_prop (peptide_1 peptide_2 shift_peptide : String) (shift_index : ℕ) :
    (∃ z : ℤ, compare_peptides peptide_1 peptide_2 shift_peptide shift_index * 20 = (z:ℚ)) ∧
      0 ≤ compare_peptides peptide_1 peptide_2 shift_peptide shift_index := by
  unfold compare_peptides
  constructor
  · refine sum_scaled_20 _ ?_
    intro x hx
    simp only [List.mem_map] at hx
    obtain ⟨pr, _, rfl⟩ := hx
    exact (compare_amino_acids_prop pr.1 pr.2).1
  · refine List.sum_nonneg ?_
    intro x hx
    simp only [List.mem_map] at hx
    obtain ⟨pr, _, rfl⟩ := hx
    exact (compare_amino_acids_prop pr.1 pr.2).2.1

theorem foldl_loop_update_scaled (prot_seq : String → String → String) (poi prot : String)
    (shift : List String × String × ℕ) :
    ∀ (loops : List String) (s : ℚ), (∃ z : ℤ, s * 20 = (z:ℚ)) →
      ∃ z : ℤ, (loops.foldl (loop_update prot_seq poi prot shift) s) * 20 = (z:ℚ) := by
  intro loops
  induction loops with
  | nil => exact fun s hs => hs
  | cons loop rest ih =>
    intro s hs
    refine ih _ ?_
    simp only [loop_update]
    by_cases hshort : (prot_seq poi loop).length < 4 ∨ (prot_seq prot loop).length < 4
    · rw [if_pos hshort]
      obtain ⟨z, hz⟩ := hs
      exact ⟨z + z, by push_cast; linarith⟩
    · rw [if_neg hshort]
      obtain ⟨z, hz⟩ := hs
      obtain ⟨w, hw⟩ := (compare_peptides_prop (prot_seq poi loop) (prot_seq prot loop)
        (if loop ∈ shift.1 then shift.2.1 else "")
        (if loop ∈ shift.1 then shift.2.2 else 0)).1
      exact ⟨z + w, by push_cast; linarith [hw]⟩

theorem compare_protein_score_scaled (loops : List String)
    (prot_seq : String → String → String) (poi prot : String)
    (shift : List String × String × ℕ) :
    ∃ z : ℤ, compare_protein_score loops prot_seq poi prot shift * 20 = (z:ℚ) :=
  foldl_loop_update_scaled prot_seq poi prot shift loops 0 ⟨0, by norm_num⟩

theorem round_half_even_intCast (z : ℤ) : round_half_even (z:ℚ) = z := by
  unfold round_half_even
  simp [Int.floor_intCast]
  all_goals norm_num

theorem round_floats_of_scaled_100 {q : ℚ} (h : ∃ z : ℤ, q * 100 = (z:ℚ)) :
    round_floats q = q := by
  obtain ⟨z, hz⟩ := h
  unfold round_floats
  rw [hz, round_half_even_intCast, ← hz]
  ring

theorem round_half_up_intCast (z : ℤ) : round_half_up (z:ℚ) = z := by
  unfold round_half_up
  rw [Int.floor_eq_iff]
  constructor <;> push_cast <;> norm_num

theorem round_half_up_of_scaled_100 {q : ℚ} (h : ∃ z : ℤ, q * 100 = (z:ℚ)) :
    round_two_decimals_half_up q = q := by
  obtain ⟨z, hz⟩ := h
  unfold round_two_decimals_half_up
  rw [hz, round_half_up_intCast, ← hz]
  ring

theorem scaled_20_to_100 {q : ℚ} (h : ∃ z : ℤ, q * 20 = (z:ℚ)) :
    ∃ z : ℤ, q * 100 = (z:ℚ) := by
  obtain ⟨z, hz⟩ := h
  exact ⟨5 * z, by push_cast; linarith⟩

theorem count_map_snd_filter {α : Type} (l : List (α × String)) (p : α × String → Bool)
    (s : String) :
    ((l.filter p).map Prod.snd).count s = l.countP (fun e => p e && (s == e.2)) := by
  induction l with
  | nil => rfl
  | cons a t ih =>
    cases hp : p a with
    | false => simp [List.filter_cons, hp, List.countP_cons, ih]
    | true =>
      simp [List.filter_cons, hp, List.countP_cons, List.count_cons, ih, Nat.add_comm]
      rcases eq_or_ne a.2 s with h | h
      · simp [h]
      · simp [h, Ne.symm h]

theorem box_label_ne (s : String) : ("i-->i+4 Salt bridge" == "Box N-cap" ++ s) = false := by
  refine beq_eq_false_iff_ne.mpr ?_
  obtain ⟨m⟩ := s
  intro h
  have h2 : "i-->i+4 Salt bridge".data.headD 'z' =
      ("Box N-cap" ++ String.mk m).data.headD 'z' := by rw [h]
  have h3 : 'i' = 'B' := h2
  exact absurd h3 (by decide)

theorem big_box_label_ne (s : String) :
    ("i-->i+4 Salt bridge" == "Big Box N-cap" ++ s) = false := by
  refine beq_eq_false_iff_ne.mpr ?_
  obtain ⟨m⟩ := s
  intro h
  have h2 : "i-->i+4 Salt bridge".data.headD 'z' =
      ("Big Box N-cap" ++ String.mk m).data.headD 'z' := by rw [h]
  have h3 : 'i' = 'B' := h2
  exact absurd h3 (by decide)

theorem shellman_label_ne (peptide : String) :
    ("i-->i+4 Salt bridge" == stringency peptide ++ " Shellman C-cap") = false := by
  unfold stringency
  split <;> decide

/-! ### Claim theorems -/

/-- Claim C1: `compare_peptides` is the sum of `compare_amino_acids` over
the positional zip of the two letter streams, the stream named by the
shift side being the frameshifted iteration, with zip truncation; and the
two scenario values 58.65 and 64.75 hold. -/
theorem claim_C1 :
    (∀ (peptide_1 peptide_2 shift_peptide : String) (shift_index : ℕ),
      compare_peptides peptide_1 peptide_2 shift_peptide shift_index =
        (((if shift_peptide = "first" then iterate_peptide peptide_1.toList shift_index
             else peptide_1.toList).zip
          (if shift_peptide = "second" then iterate_peptide peptide_2.toList shift_index
             else peptide_2.toList)).map
            (fun aa_pair => compare_amino_acids aa_pair.1 aa_pair.2)).sum)
    ∧ (∀ shift_index : ℕ, compare_peptides "LSPSRPGMQD" "PTQVSEFTRC" "" shift_index = 58.65)
    ∧ compare_peptides "LSPSRPGMQD" "PTQVSEFTRC" "second" 3 = 64.75 := by
  refine ⟨fun _ _ _ _ => rfl, fun shift_index => ?_, ?_⟩
  · simp +decide only [compare_peptides, compare_amino_acids, aa_score, misc_score, misc_fallback,
      hydro_lookup, size_lookup, dict_lookup, HYDRO_SCORES, SIZE_SCORES, MISC_SCORES, MAX_HYDRO,
      MAX_SIZE, HYDRO_WEIGHT, SIZE_WEIGHT, MISC_WEIGHT, fragmentate_dictionary, iterate_peptide,
      String.toList, List.zip, List.zipWith, List.map, List.sum, List.foldr]
    all_goals norm_num [abs_of_nonneg, abs_of_nonpos]
  · simp +decide only [compare_peptides, compare_amino_acids, aa_score, misc_score, misc_fallback,
      hydro_lookup, size_lookup, dict_lookup, HYDRO_SCORES, SIZE_SCORES, MISC_SCORES, MAX_HYDRO,
      MAX_SIZE, HYDRO_WEIGHT, SIZE_WEIGHT, MISC_WEIGHT, fragmentate_dictionary, iterate_peptide,
      String.toList, List.zip, List.zipWith, List.map, List.sum, List.foldr]
    all_goals norm_num [abs_of_nonneg, abs_of_nonpos]

/-- Claim C2 counterexample: the claim asserts
`compare_amino_acids('G','G') = 3*1.8 + 6*1.0 + 3*1.2 = 14.4`, but that
expression equals 15.0, and the code indeed returns 15.0, not 14.4. -/
theorem claim_C2_counterexample :
    compare_amino_acids 'G' 'G' ≠ 14.4 ∧ compare_amino_acids 'G' 'G' = 15.0 ∧
      3 * (1.8 : ℚ) + 6 * 1.0 + 3 * 1.2 = 15.0 := by
  refine ⟨?_, ?_, by norm_num⟩ <;>
  · simp +decide only [compare_amino_acids, aa_score, misc_score, misc_fallback, hydro_lookup,
      size_lookup, dict_lookup, HYDRO_SCORES, SIZE_SCORES, MISC_SCORES, MAX_HYDRO, MAX_SIZE,
      HYDRO_WEIGHT, SIZE_WEIGHT, MISC_WEIGHT, fragmentate_dictionary]
    all_goals norm_num

/-- Claim C2 (amended): the identity-bonus formulas hold with the correct
evaluations — `compare_amino_acids('G','G') = 3*1.8 + 6*1.0 + 3*1.2 = 15.0`
(category term 3 for a self-pair in G/P/C) and
`compare_amino_acids('A','A') = 2*1.8 + 6*1.0 + 3*1.2 = 13.2`
(category term 2 otherwise). -/
theorem claim_C2_amended :
    misc_score 'G' 'G' = 3 ∧ compare_amino_acids 'G' 'G' = 3 * 1.8 + 6 * 1.0 + 3 * 1.2 ∧
      compare_amino_acids 'G' 'G' = 15.0 ∧
    misc_score 'A' 'A' = 2 ∧ compare_amino_acids 'A' 'A' = 2 * 1.8 + 6 * 1.0 + 3 * 1.2 ∧
      compare_amino_acids 'A' 'A' = 13.2 := by
  refine ⟨?_, ?_, ?_, ?_, ?_, ?_⟩ <;>
  · simp +decide only [compare_amino_acids, aa_score, misc_score, misc_fallback, hydro_lookup,
      size_lookup, dict_lookup, HYDRO_SCORES, SIZE_SCORES, MISC_SCORES, MAX_HYDRO, MAX_SIZE,
      HYDRO_WEIGHT, SIZE_WEIGHT, MISC_WEIGHT, fragmentate_dictionary]
    all_goals norm_num

/-- Claim C4: the frameshifted iteration yields the original letters with
a synthetic `X` inserted immediately before the letter at the 0-based
insertion index (sequence unchanged when the index is out of range), the
length grows by one exactly when the index is in range, and the two
scenario runs on "ABC" hold. -/
theorem claim_C4 :
    (∀ (p : List Char) (i : ℕ),
      iterate_peptide p i = p.take i ++ (if i < p.length then ['X'] else []) ++ p.drop i)
    ∧ (∀ (p : List Char) (i : ℕ),
      (iterate_peptide p i).length = if i < p.length then p.length + 1 else p.length)
    ∧ iterate_peptide "ABC".toList 1 = "AXBC".toList
    ∧ iterate_peptide "ABC".toList 99 = "ABC".toList :=
  ⟨iterate_peptide_eq, iterate_peptide_length, by decide, by decide⟩

/-- Claim C7: a comparison involving `X` never takes the identity-bonus
branch (its category term always comes from the fallback group scan), the
fallback value for the pair (X, X) is 0 since `X` lies in no category
group, and therefore `compare_amino_acids('X','X') = 0*1.8 + 6*1.0 + 3*1.2`. -/
theorem claim_C7 :
    (∀ c : Char, misc_score 'X' c = misc_fallback MISC_SCORES 'X' c ∧
      misc_score c 'X' = misc_fallback MISC_SCORES c 'X')
    ∧ misc_fallback MISC_SCORES 'X' 'X' = 0
    ∧ compare_amino_acids 'X' 'X' = 0 * 1.8 + 6 * 1.0 + 3 * 1.2 := by
  refine ⟨fun c => ⟨?_, ?_⟩, ?_, ?_⟩
  · rw [misc_score, if_neg]
    rintro ⟨rfl, h⟩
    exact h rfl
  · rw [misc_score, if_neg]
    rintro ⟨rfl, h⟩
    exact h rfl
  · simp +decide only [misc_fallback, MISC_SCORES]
  · simp +decide only [compare_amino_acids, aa_score, misc_score, misc_fallback, hydro_lookup,
      size_lookup, dict_lookup, HYDRO_SCORES, SIZE_SCORES, MISC_SCORES, MAX_HYDRO, MAX_SIZE,
      HYDRO_WEIGHT, SIZE_WEIGHT, MISC_WEIGHT, fragmentate_dictionary]
    all_goals norm_num

/-- Claim C8 counterexample: for the malformed side selector "sideways"
the comparator does not fail — it returns the ordinary no-shift score
(28.2 for the pair "AC"/"AC"), so no rejection happens at the boundary. -/
theorem claim_C8_counterexample :
    compare_peptides "AC" "AC" "sideways" 0 = compare_peptides "AC" "AC" "" 0 ∧
      compare_peptides "AC" "AC" "sideways" 0 = 28.2 := by
  constructor <;>
  · simp +decide only [compare_peptides, compare_amino_acids, aa_score, misc_score, misc_fallback,
      hydro_lookup, size_lookup, dict_lookup, HYDRO_SCORES, SIZE_SCORES, MISC_SCORES, MAX_HYDRO,
      MAX_SIZE, HYDRO_WEIGHT, SIZE_WEIGHT, MISC_WEIGHT, fragmentate_dictionary, iterate_peptide,
      String.toList, List.zip, List.zipWith, List.map, List.sum, List.foldr]
    all_goals norm_num [abs_of_nonneg, abs_of_nonpos]

/-- Claim C8 (amended): a `shift_peptide` that is neither "first" nor
"second" is silently treated as "no shift": `compare_peptides` returns the
plain unshifted score instead of rejecting the malformed selector. -/
theorem claim_C8_amended (peptide_1 peptide_2 shift_peptide : String)
    (shift_index shift_index_2 : ℕ) (h1 : shift_peptide ≠ "first")
    (h2 : shift_peptide ≠ "second") :
    compare_peptides peptide_1 peptide_2 shift_peptide shift_index =
      compare_peptides peptide_1 peptide_2 "" shift_index_2 := by
  simp +decide [compare_peptides, h1, h2]

/-- Claim C8 witness: the amended statement applied at the malformed
selector "sideways". -/
theorem claim_C8_witness :
    compare_peptides "LSPSRPGMQD" "PTQVSEFTRC" "sideways" 3 =
      compare_peptides "LSPSRPGMQD" "PTQVSEFTRC" "" 0 :=
  claim_C8_amended "LSPSRPGMQD" "PTQVSEFTRC" "sideways" 3 0 (by decide) (by decide)

/-- Claim C6: scanning "QYHAPWHPKSHKCQQCSYNHAGWVA" yields the Big Box
N-cap label and the Broad-stringency C-cap label; the source however
spells the C-cap label "Shellman", while its own module docstring (and the
spec) spell the motif "Schellman", so the exact list claimed by the spec
is not what the code returns. -/
theorem claim_C6_code_behavior :
    find_structural_motifs "QYHAPWHPKSHKCQQCSYNHAGWVA" =
      ["Big Box N-cap", "Broad Shellman C-cap"] ∧
    find_structural_motifs "QYHAPWHPKSHKCQQCSYNHAGWVA" ≠
      ["Big Box N-cap", "Broad Schellman C-cap"] := by
  constructor <;> decide

/-- Claim C3: in `compare_proteins`, a loop whose peptide-of-interest or
candidate peptide is shorter than 4 letters doubles the running score
instead of adding a comparison; for a two-loop request whose first loop is
long on both sides and whose second is short, the accumulated score is
exactly twice the first loop's peptide comparison (and so is its rounded,
yielded form); and a short loop processed first contributes nothing (the
fold continues from 0). -/
theorem claim_C3 :
    (∀ (prot_seq : String → String → String) (poi prot : String)
        (shift : List String × String × ℕ) (score : ℚ) (loop : String),
      ((prot_seq poi loop).length < 4 ∨ (prot_seq prot loop).length < 4) →
      loop_update prot_seq poi prot shift score loop = score + score)
    ∧ (∀ (prot_seq : String → String → String) (poi prot : String)
        (shift : List String × String × ℕ) (loop_1 loop_2 : String),
      4 ≤ (prot_seq poi loop_1).length → 4 ≤ (prot_seq prot loop_1).length →
      ((prot_seq poi loop_2).length < 4 ∨ (prot_seq prot loop_2).length < 4) →
      compare_protein_score [loop_1, loop_2] prot_seq poi prot shift =
        2 * compare_peptides (prot_seq poi loop_1) (prot_seq prot loop_1)
            (if loop_1 ∈ shift.1 then shift.2.1 else "")
            (if loop_1 ∈ shift.1 then shift.2.2 else 0) ∧
      round_floats (compare_protein_score [loop_1, loop_2] prot_seq poi prot shift) =
        round_floats (2 * compare_peptides (prot_seq poi loop_1) (prot_seq prot loop_1)
            (if loop_1 ∈ shift.1 then shift.2.1 else "")
            (if loop_1 ∈ shift.1 then shift.2.2 else 0)))
    ∧ (∀ (prot_seq : String → String → String) (poi prot : String)
        (shift : List String × String × ℕ) (loops : List String) (loop : String),
      ((prot_seq poi loop).length < 4 ∨ (prot_seq prot loop).length < 4) →
      compare_protein_score (loop :: loops) prot_seq poi prot shift =
        compare_protein_score loops prot_seq poi prot shift) := by
  have short_rule : ∀ (prot_seq : String → String → String) (poi prot : String)
      (shift : List String × String × ℕ) (score : ℚ) (loop : String),
      ((prot_seq poi loop).length < 4 ∨ (prot_seq prot loop).length < 4) →
      loop_update prot_seq poi prot shift score loop = score + score := by
    intro prot_seq poi prot shift score loop h
    simp only [loop_update, if_pos h]
  refine ⟨short_rule, ?_, ?_⟩
  · intro prot_seq poi prot shift loop_1 loop_2 h1 h2 hshort
    have hlong : ¬((prot_seq poi loop_1).length < 4 ∨ (prot_seq prot loop_1).length < 4) := by
      omega
    have step : compare_protein_score [loop_1, loop_2] prot_seq poi prot shift =
        2 * compare_peptides (prot_seq poi loop_1) (prot_seq prot loop_1)
          (if loop_1 ∈ shift.1 then shift.2.1 else "")
          (if loop_1 ∈ shift.1 then shift.2.2 else 0) := by
      simp only [compare_protein_score, List.foldl]
      rw [short_rule prot_seq poi prot shift _ loop_2 hshort]
      simp only [loop_update, if_neg hlong]
      ring
    exact ⟨step, by rw [step]⟩
  · intro prot_seq poi prot shift loops loop h
    simp only [compare_protein_score, List.foldl]
    rw [short_rule prot_seq poi prot shift 0 loop h]
    norm_num

/-- Claim C3 witness: a concrete two-loop table where loop_1 peptides are
"LSPS" and "PTQV" (length 4) and the loop_2 peptide is "AB" (length 2);
the accumulated score is twice the loop_1 comparison. -/
theorem claim_C3_witness :
    compare_protein_score ["loop_1", "loop_2"]
        (fun p loop => if loop = "loop_1" then (if p = "A" then "LSPS" else "PTQV") else "AB")
        "A" "B" ([], "", 0) =
      2 * compare_peptides "LSPS" "PTQV" "" 0 := by
  have h := (claim_C3.2.1
    (fun p loop => if loop = "loop_1" then (if p = "A" then "LSPS" else "PTQV") else "AB")
    "A" "B" ([], "", 0) "loop_1" "loop_2" (by decide) (by decide) (by decide)).1
  simpa using h

/-- Claim C9 counterexample: "RAAAEAAAR" matches both directional patterns
of the i→i+4 salt-bridge rule, and the scanner emits the label twice — the
two directions are two separate catalogue entries, not one. -/
theorem claim_C9_counterexample :
    find_structural_motifs "RAAAEAAAR" = ["i-->i+4 Salt bridge", "i-->i+4 Salt bridge"] := by
  decide

/-- Claim C9 (amended): each catalogue entry that matches contributes
exactly one label, but the i→i+4 salt bridge occupies two entries (one per
direction), so any peptide matching both directional patterns receives the
"i-->i+4 Salt bridge" label exactly twice. -/
theorem claim_C9_amended (peptide : String)
    (hf : regex_search salt_bridge_4_fwd_pat peptide = true)
    (hr : regex_search salt_bridge_4_rev_pat peptide = true) :
    (find_structural_motifs peptide).count "i-->i+4 Salt bridge" = 2 := by
  have e_self : (("i-->i+4 Salt bridge" : String) == "i-->i+4 Salt bridge") = true := by decide
  have e_i3 : (("i-->i+4 Salt bridge" : String) == "i-->i+3 Salt bridge") = false := by decide
  have e_alphal : (("i-->i+4 Salt bridge" : String) == "AlphaL C-cap") = false := by decide
  have e_beta : (("i-->i+4 Salt bridge" : String) == "Multiple beta-branched residues") = false :=
    by decide
  have base : (((structural_motifs peptide).filter
      (fun e => regex_search e.1 peptide)).map Prod.snd).count "i-->i+4 Salt bridge" = 2 := by
    rw [count_map_snd_filter]
    simp only [structural_motifs, List.countP_cons, List.countP_nil, hf, hr, e_self, e_i3,
      e_alphal, box_label_ne, big_box_label_ne, shellman_label_ne, Bool.and_false, Bool.and_true,
      Bool.true_and, Bool.false_and, if_true, if_false]
    simp
  by_cases hb : 1 < beta_branched_count peptide
  · simp only [find_structural_motifs, if_pos hb, List.count_append, base]
    simp [List.count_cons, e_beta]
  · simpa only [find_structural_motifs, if_neg hb] using base

/-- Claim C9 witness: the amended count applied at "RAAAEAAAR". -/
theorem claim_C9_witness :
    (find_structural_motifs "RAAAEAAAR").count "i-->i+4 Salt bridge" = 2 :=
  claim_C9_amended "RAAAEAAAR" (by decide) (by decide)

/-- Claim C5: every numeric output leaving the core already carries at
most two decimal places, so rounding it to two decimal places half-up (as
the spec words it) — or with the code's half-even quantization — returns
it unchanged: this holds for `compare_amino_acids`, `compare_peptides`,
and every score yielded by `compare_proteins` (which the code produces
through `round_floats`). -/
theorem claim_C5 :
    (∀ a b : Char, a.toUpper ∈ valid_amino_acids → b.toUpper ∈ valid_amino_acids →
      round_two_decimals_half_up (compare_amino_acids a b) = compare_amino_acids a b ∧
      round_floats (compare_amino_acids a b) = compare_amino_acids a b)
    ∧ (∀ (peptide_1 peptide_2 shift_peptide : String) (shift_index : ℕ),
      valid_peptide peptide_1 → valid_peptide peptide_2 →
      round_two_decimals_half_up (compare_peptides peptide_1 peptide_2 shift_peptide shift_index) =
        compare_peptides peptide_1 peptide_2 shift_peptide shift_index ∧
      round_floats (compare_peptides peptide_1 peptide_2 shift_peptide shift_index) =
        compare_peptides peptide_1 peptide_2 shift_peptide shift_index)
    ∧ (∀ (loops : List String) (prot_seq : String → String → String) (index : List String)
        (poi : String) (shift : List String × String × ℕ),
      (∀ p l, valid_peptide (prot_seq p l)) →
      ∀ s ∈ compare_proteins loops prot_seq index poi shift,
        round_two_decimals_half_up s = s ∧ round_floats s = s) := by
  refine ⟨?_, ?_, ?_⟩
  · intro a b _ _
    have h := scaled_20_to_100 (compare_amino_acids_prop a b).1
    exact ⟨round_half_up_of_scaled_100 h, round_floats_of_scaled_100 h⟩
  · intro p1 p2 sp si _ _
    have h := scaled_20_to_100 (compare_peptides_prop p1 p2 sp si).1
    exact ⟨round_half_up_of_scaled_100 h, round_floats_of_scaled_100 h⟩
  · intro loops prot_seq index poi shift _ s hs
    simp only [compare_proteins, List.mem_map] at hs
    obtain ⟨prot, _, rfl⟩ := hs
    have h100 := scaled_20_to_100 (compare_protein_score_scaled loops prot_seq poi prot shift)
    rw [round_floats_of_scaled_100 h100]
    exact ⟨round_half_up_of_scaled_100 h100, round_floats_of_scaled_100 h100⟩

/-- Claim C5 witness: the three clauses at concrete valid inputs. -/
theorem claim_C5_witness :
    round_two_decimals_half_up (compare_amino_acids 'G' 'A') = compare_amino_acids 'G' 'A' ∧
    round_two_decimals_half_up (compare_peptides "LSPS" "PTQV" "" 0) =
      compare_peptides "LSPS" "PTQV" "" 0 ∧
    round_two_decimals_half_up
        (round_floats (compare_protein_score ["loop_1"] (fun _ _ => "LSPS") "A" "B" ([], "", 0))) =
      round_floats (compare_protein_score ["loop_1"] (fun _ _ => "LSPS") "A" "B" ([], "", 0)) := by
  have hv : valid_peptide "LSPS" := by simp only [valid_peptide]; decide
  have hv2 : valid_peptide "PTQV" := by simp only [valid_peptide]; decide
  exact ⟨(claim_C5.1 'G' 'A' (by decide) (by decide)).1,
    (claim_C5.2.1 "LSPS" "PTQV" "" 0 hv hv2).1,
    (claim_C5.2.2 ["loop_1"] (fun _ _ => "LSPS") ["B"] "A" ([], "", 0)
      (fun p l => hv) _ (by simp [compare_proteins])).1⟩

/-- Claim C10: over the valid alphabet every amino-acid score is a
non-negative integer multiple of 0.05 bounded by 15.0, and hence every
un-rounded peptide-comparison sum has at most two decimal places, so that
two-decimal rounding (the code's half-even or the spec's half-up) leaves
it unchanged. -/
theorem claim_C10 :
    (∀ a ∈ valid_amino_acids, ∀ b ∈ valid_amino_acids,
      ∃ k : ℕ, k ≤ 300 ∧ compare_amino_acids a b = (k : ℚ) * 0.05)
    ∧ (∀ (peptide_1 peptide_2 shift_peptide : String) (shift_index : ℕ),
      valid_peptide peptide_1 → valid_peptide peptide_2 →
      (∃ z : ℤ, compare_peptides peptide_1 peptide_2 shift_peptide shift_index * 100 = (z:ℚ)) ∧
      round_floats (compare_peptides peptide_1 peptide_2 shift_peptide shift_index) =
        compare_peptides peptide_1 peptide_2 shift_peptide shift_index ∧
      round_two_decimals_half_up (compare_peptides peptide_1 peptide_2 shift_peptide shift_index) =
        compare_peptides peptide_1 peptide_2 shift_peptide shift_index) := by
  constructor
  · intro a _ b _
    obtain ⟨⟨z, hz⟩, h0, h15⟩ := compare_amino_acids_prop a b
    have hz0 : (0:ℚ) ≤ (z:ℚ) := by rw [← hz]; linarith
    have hzint0 : (0:ℤ) ≤ z := by exact_mod_cast hz0
    have hz300 : (z:ℚ) ≤ 300 := by rw [← hz]; linarith
    have hzint300 : z ≤ 300 := by exact_mod_cast hz300
    refine ⟨z.toNat, by omega, ?_⟩
    have hcast : ((z.toNat : ℕ) : ℚ) = (z : ℚ) := by
      have := Int.toNat_of_nonneg hzint0
      exact_mod_cast congrArg (fun w : ℤ => (w : ℚ)) this
    rw [hcast, show (0.05 : ℚ) = 1 / 20 by norm_num]
    linarith
  · intro p1 p2 sp si _ _
    have h100 := scaled_20_to_100 (compare_peptides_prop p1 p2 sp si).1
    exact ⟨h100, round_floats_of_scaled_100 h100, round_half_up_of_scaled_100 h100⟩

/-- Claim C10 witness: both clauses at concrete valid inputs. -/
theorem claim_C10_witness :
    (∃ k : ℕ, k ≤ 300 ∧ compare_amino_acids 'G' 'A' = (k : ℚ) * 0.05) ∧
    (∃ z : ℤ, compare_peptides "LSPS" "PTQV" "" 0 * 100 = (z:ℚ)) := by
  have hv : valid_peptide "LSPS" := by simp only [valid_peptide]; decide
  have hv2 : valid_peptide "PTQV" := by simp only [valid_peptide]; decide
  exact ⟨claim_C10.1 'G' (by decide) 'A' (by decide),
    (claim_C10.2 "LSPS" "PTQV" "" 0 hv hv2).1⟩

end ProteinCompare
